import Mathlib

/-!
Shallow embedding of the K-Means clustering engines of the repository
astropathfinder-ml.github.io.

Two engines exist in the source, textually almost identical:

* runKMeans in src/pages/UnsupervisedLearning.tsx (lines 154-213);
* runKMeansWithHistory in src/components/playground/GalaxyZooExample.tsx
  (lines 438-504), which additionally records a snapshot of the state after
  every iteration and re-seeds empty clusters from random data points.

A data record enters either engine only through its two selected numeric
features (point[xCol] and point[yCol], resp. point.features[xCol] and
point.features[yCol]); a point is therefore embedded as the pair of those
two real values.  The implicit global random number generator (Math.random)
is embedded as explicit arguments: a finite list of drawn indices for the
initialization loop, and index oracles for the re-seeding draws of the
history variant.  JavaScript number arithmetic is embedded as real
arithmetic, as the specification does (its numeric-semantics section
delegates NaN/Infinity handling to the caller).
-/

namespace AstroKMeans

/-- A point as seen by the engine: the two selected numeric features
(x = point[xCol], y = point[yCol]). -/
abbrev Point : Type := ℝ × ℝ

/-- Mirror of the KMeansResult record type of
src/pages/UnsupervisedLearning.tsx lines 113-116 (same shape in
GalaxyZooExample.tsx lines 289-292): per-point cluster assignments and the
centroid list. -/
structure KMeansResult where
  assignments : List ℕ
  centroids : List Point

/-- Accumulator cell of the update pass: the JavaScript object
x / y / count created by Array.from at line 198 of
UnsupervisedLearning.tsx (line 486 of GalaxyZooExample.tsx). -/
abbrev Cell : Type := ℝ × ℝ × ℕ

/-- Euclidean distance computed in the assignment pass:
Math.sqrt(Math.pow(px - cx, 2) + Math.pow(py - cy, 2))
(UnsupervisedLearning.tsx lines 183-185, GalaxyZooExample.tsx lines 471-473). -/
noncomputable def distance (p c : Point) : ℝ :=
  Real.sqrt ((p.1 - c.1) ^ 2 + (p.2 - c.2) ^ 2)

/-- The centroids.forEach loop of the assignment pass
(UnsupervisedLearning.tsx lines 182-191, GalaxyZooExample.tsx lines 470-479):
walks the centroid list carrying the running index, the best cluster so far
and the minimal distance so far.  The initial JavaScript minDistance of
Infinity is embedded as the Option value none, against which every real
distance compares as smaller (no NaN exists among the reals); the comparison
with an already-seen distance is the strict < of the source. -/
noncomputable def nearestAux (p : Point) : List Point → ℕ → ℕ × Option ℝ → ℕ × Option ℝ
  | [], _, acc => acc
  | c :: cs, idx, acc =>
      let d := distance p c
      let acc' : ℕ × Option ℝ :=
        match acc.2 with
        | none => (idx, some d)
        | some m => if d < m then (idx, some d) else acc
      nearestAux p cs (idx + 1) acc'

/-- Index of the nearest centroid for one point: the bestCluster variable
after the centroids.forEach loop, starting from bestCluster = 0 and
minDistance = Infinity. -/
noncomputable def nearestCluster (p : Point) (cents : List Point) : ℕ :=
  (nearestAux p cents 0 (0, none)).1

/-- One full assignment pass (UnsupervisedLearning.tsx lines 178-195,
GalaxyZooExample.tsx lines 466-483).  The source writes
assignments[i] = bestCluster for every i, each bestCluster depending only on
data[i] and the current centroids, so the resulting assignment array is the
map of nearestCluster over the data; the changed flag of the source is
recovered as inequality of the new and the old array (they always have the
same length). -/
noncomputable def assignPass (data : List Point) (cents : List Point) : List ℕ :=
  data.map fun p => nearestCluster p cents

/-- One step of the data.forEach accumulation of the update pass
(UnsupervisedLearning.tsx lines 199-204, GalaxyZooExample.tsx lines 487-492):
newCentroids[ci].x += px; newCentroids[ci].y += py; newCentroids[ci].count++
for the pair (point, ci = assignments[i]). -/
def accumStep (acc : List Cell) (pa : Point × ℕ) : List Cell :=
  let c := acc.getD pa.2 (0, 0, 0)
  acc.set pa.2 (c.1 + pa.1.1, c.2.1 + pa.1.2, c.2.2 + 1)

/-- The data.forEach accumulation of the update pass over all
(point, assignment) pairs; the source pairs data[i] with assignments[i],
and the two arrays always have the same length. -/
def accumulate (pairs : List (Point × ℕ)) (acc : List Cell) : List Cell :=
  pairs.foldl accumStep acc

/-- Update pass of runKMeans (UnsupervisedLearning.tsx lines 197-209):
a fresh accumulator array of length k is filled from the current
assignments, and each cell is turned into a centroid; a cell with count 0
yields the centroid (0, 0) (the ternaries c.count > 0 ? c.x / c.count : 0
at lines 207-208). -/
noncomputable def updatePass (data : List Point) (assigns : List ℕ) (k : ℕ) : List Point :=
  (accumulate (data.zip assigns) (List.replicate k ((0 : ℝ), (0 : ℝ), (0 : ℕ)))).map
    fun c => if 0 < c.2.2 then (c.1 / (c.2.2 : ℝ), c.2.1 / (c.2.2 : ℝ)) else (0, 0)

/-- The centroid-initialization while loop
(UnsupervisedLearning.tsx lines 162-170, GalaxyZooExample.tsx lines 448-456):
while centroids.length < k and centroids.length < data.length, draw a random
index; if it was not used yet, push the drawn point's feature pair and mark
the index used.  The successive values of Math.floor(Math.random() *
data.length) are supplied as the list rs (a finite prefix of the random
stream); the recursion consumes it and stops early, exactly as the source,
once enough distinct indices have been accepted. -/
def initLoop (data : List Point) (k : ℕ) : List ℕ → List Point → List ℕ → List Point
  | [], cents, _ => cents
  | r :: rs, cents, used =>
      if cents.length < k ∧ cents.length < data.length then
        if r ∈ used then initLoop data k rs cents used
        else initLoop data k rs (cents ++ [data.getD r (0, 0)]) (r :: used)
      else cents

/-- Initial centroid list produced by the while loop, started from an empty
centroid list and an empty used-index set. -/
def initCentroids (data : List Point) (k : ℕ) (rs : List ℕ) : List Point :=
  initLoop data k rs [] []

/-- The main for loop of runKMeans (UnsupervisedLearning.tsx lines 176-210):
for (iter = 0; iter < maxIterations && changed; iter++) run an assignment
pass followed by an update pass.  The loop is embedded by recursion on the
remaining iteration budget; the changed flag of the source is the
disequality of the new and old assignment arrays, and the update pass still
runs in the iteration in which nothing changed, exactly as in the source.
The third component counts the executed passes. -/
noncomputable def kmeansLoop (data : List Point) (k : ℕ) :
    ℕ → List ℕ → List Point → List ℕ × List Point × ℕ
  | 0, assigns, cents => (assigns, cents, 0)
  | fuel + 1, assigns, cents =>
      let newA := assignPass data cents
      let newC := updatePass data newA k
      if newA = assigns then (newA, newC, 1)
      else
        let r := kmeansLoop data k fuel newA newC
        (r.1, r.2.1, r.2.2 + 1)

/-- The engine runKMeans of src/pages/UnsupervisedLearning.tsx lines 154-213:
random initialization, an all-zero assignment array of the data's length
(line 172), then the iteration loop; returns the final assignments and
centroids. -/
noncomputable def runKMeans (data : List Point) (k : ℕ) (maxIterations : ℕ)
    (rs : List ℕ) : KMeansResult :=
  let cents := initCentroids data k rs
  let assigns := List.replicate data.length 0
  let r := kmeansLoop data k maxIterations assigns cents
  ⟨r.1, r.2.1⟩

/-- Update pass of runKMeansWithHistory (GalaxyZooExample.tsx lines 485-499):
identical accumulation, but a cell with count 0 is re-initialized from
randomly drawn data points instead of collapsing to (0, 0); the source draws
Math.floor(Math.random() * data.length) twice, independently for the x and
the y feature (line 498), so the two coordinates may come from different
points.  The draws of the current iteration are supplied by the oracles
rX and rY, indexed by the cluster position in the map. -/
noncomputable def updatePassReseed (data : List Point) (assigns : List ℕ) (k : ℕ)
    (rX rY : ℕ → ℕ) : List Point :=
  ((accumulate (data.zip assigns) (List.replicate k ((0 : ℝ), (0 : ℝ), (0 : ℕ)))).enum).map
    fun ic =>
      if 0 < ic.2.2.2 then (ic.2.1 / (ic.2.2.2 : ℝ), ic.2.2.1 / (ic.2.2.2 : ℝ))
      else ((data.getD (rX ic.1) (0, 0)).1, (data.getD (rY ic.1) (0, 0)).2)

/-- The main for loop of runKMeansWithHistory (GalaxyZooExample.tsx lines
463-502): same assignment pass, the re-seeding update pass, then
history.push of a snapshot of the current assignments and centroids
(line 501).  The iteration counter iter indexes the random oracles; the
returned pair is the list of snapshots pushed by the loop and the number of
executed passes (one snapshot per pass). -/
noncomputable def kmeansLoopH (data : List Point) (k : ℕ) (rX rY : ℕ → ℕ → ℕ) :
    ℕ → ℕ → List ℕ → List Point → List KMeansResult × ℕ
  | 0, _, _, _ => ([], 0)
  | fuel + 1, iter, assigns, cents =>
      let newA := assignPass data cents
      let newC := updatePassReseed data newA k (rX iter) (rY iter)
      if newA = assigns then ([⟨newA, newC⟩], 1)
      else
        let r := kmeansLoopH data k rX rY fuel (iter + 1) newA newC
        (⟨newA, newC⟩ :: r.1, r.2 + 1)

/-- The engine runKMeansWithHistory of
src/components/playground/GalaxyZooExample.tsx lines 438-504: random
initialization (identical to runKMeans), an all-zero assignment array, an
initial snapshot of that state pushed before the loop (line 460), then the
iteration loop, returning the full snapshot history. -/
noncomputable def runKMeansWithHistory (data : List Point) (k : ℕ) (maxIterations : ℕ)
    (rs : List ℕ) (rX rY : ℕ → ℕ → ℕ) : List KMeansResult :=
  let cents := initCentroids data k rs
  let assigns := List.replicate data.length 0
  (⟨assigns, cents⟩ : KMeansResult) :: (kmeansLoopH data k rX rY maxIterations 0 assigns cents).1

/-! ### Fallible mirror of runKMeans

JavaScript array indexing past the end yields undefined, and the update pass
then throws a TypeError at newCentroids[clusterIndex].x += ...
(UnsupervisedLearning.tsx lines 199-204) because the accumulator array
created by Array.from at line 198 has length k (length 0 when k is 0 or
negative, since ToLength clamps).  The definitions below mirror runKMeans
with that indexing made explicit, to settle the error-behavior claims: an
out-of-range cluster index in the accumulation raises TypeError.  The
engine contains no argument validation, so the failure type also lists
invalidArgument only to state that the engine never produces it. -/

/-- Kinds of failure relevant to the error-handling specification of the
engine: the unhandled JavaScript TypeError actually reachable in the code,
and the InvalidArgument failure the specification describes. -/
inductive KMeansFailure where
  | typeError : KMeansFailure
  | invalidArgument : KMeansFailure
deriving DecidableEq

/-- One accumulation step with the JavaScript out-of-bounds behavior made
explicit: newCentroids[ci] is undefined when ci is not a valid index, and
undefined.x += ... throws a TypeError. -/
def accumStepE (acc : List Cell) (pa : Point × ℕ) :
    Except KMeansFailure (List Cell) :=
  if pa.2 < acc.length then Except.ok (accumStep acc pa) else Except.error KMeansFailure.typeError

/-- The data.forEach accumulation with the fallible step; the first thrown
TypeError aborts the whole call, as an unhandled exception does. -/
def accumulateE : List (Point × ℕ) → List Cell → Except KMeansFailure (List Cell)
  | [], acc => Except.ok acc
  | pa :: ps, acc =>
      match accumStepE acc pa with
      | Except.error e => Except.error e
      | Except.ok acc' => accumulateE ps acc'

/-- Fallible update pass of runKMeans: the accumulation may throw, the final
map over the accumulator cells cannot. -/
noncomputable def updatePassE (data : List Point) (assigns : List ℕ) (k : ℕ) :
    Except KMeansFailure (List Point) :=
  match accumulateE (data.zip assigns) (List.replicate k ((0 : ℝ), (0 : ℝ), (0 : ℕ))) with
  | Except.error e => Except.error e
  | Except.ok acc =>
      Except.ok (acc.map fun c =>
        if 0 < c.2.2 then (c.1 / (c.2.2 : ℝ), c.2.1 / (c.2.2 : ℝ)) else (0, 0))

/-- Main loop of runKMeans with the fallible update pass; an exception
escapes immediately. -/
noncomputable def kmeansLoopE (data : List Point) (k : ℕ) :
    ℕ → List ℕ → List Point → Except KMeansFailure (List ℕ × List Point)
  | 0, assigns, cents => Except.ok (assigns, cents)
  | fuel + 1, assigns, cents =>
      let newA := assignPass data cents
      match updatePassE data newA k with
      | Except.error e => Except.error e
      | Except.ok newC =>
          if newA = assigns then Except.ok (newA, newC)
          else kmeansLoopE data k fuel newA newC

/-- runKMeans with JavaScript exception behavior made explicit.  A
nonpositive k of the source is embedded as k = 0: the initialization loop
accepts nothing (centroids.length < k fails at 0) and Array.from with a
negative length yields an empty array just as with length 0. -/
noncomputable def runKMeansE (data : List Point) (k : ℕ) (maxIterations : ℕ)
    (rs : List ℕ) : Except KMeansFailure KMeansResult :=
  let cents := initCentroids data k rs
  let assigns := List.replicate data.length 0
  match kmeansLoopE data k maxIterations assigns cents with
  | Except.error e => Except.error e
  | Except.ok r => Except.ok ⟨r.1, r.2⟩

/-! ### Basic shape lemmas -/

/-- The assignment pass yields one assignment per data point. -/
theorem assignPass_length (data cents : List Point) :
    (assignPass data cents).length = data.length := by
  simp [assignPass]

/-- One accumulation step never changes the accumulator's length
(the source mutates cells of newCentroids in place). -/
theorem accumStep_length (acc : List Cell) (pa : Point × ℕ) :
    (accumStep acc pa).length = acc.length := by
  simp [accumStep]

/-- The whole accumulation never changes the accumulator's length. -/
theorem accumulate_length (pairs : List (Point × ℕ)) (acc : List Cell) :
    (accumulate pairs acc).length = acc.length := by
  induction pairs generalizing acc with
  | nil => rfl
  | cons pa ps ih => simp [accumulate] at ih ⊢; rw [ih, accumStep_length]

/-- The update pass of runKMeans always returns exactly k centroids: the
accumulator array created by Array.from has length k regardless of how many
centroids currently exist. -/
theorem updatePass_length (data : List Point) (assigns : List ℕ) (k : ℕ) :
    (updatePass data assigns k).length = k := by
  simp [updatePass, accumulate_length]

/-- The re-seeding update pass of runKMeansWithHistory also returns exactly
k centroids. -/
theorem updatePassReseed_length (data : List Point) (assigns : List ℕ) (k : ℕ)
    (rX rY : ℕ → ℕ) :
    (updatePassReseed data assigns k rX rY).length = k := by
  simp [updatePassReseed, accumulate_length]

/-- The initialization loop never produces more centroids than it was asked
for, provided it starts within the bound (the while condition
centroids.length < k). -/
theorem initLoop_length_le (data : List Point) (k : ℕ) :
    ∀ (rs : List ℕ) (cents : List Point) (used : List ℕ),
      cents.length ≤ k → (initLoop data k rs cents used).length ≤ k := by
  intro rs
  induction rs with
  | nil => intro cents used h; exact h
  | cons r rs ih =>
      intro cents used h
      by_cases hc : cents.length < k ∧ cents.length < data.length
      · rw [initLoop, if_pos hc]
        by_cases hr : r ∈ used
        · rw [if_pos hr]; exact ih cents used h
        · rw [if_neg hr]
          refine ih _ _ ?_
          simpa using hc.1
      · rw [initLoop, if_neg hc]; exact h

/-- The initial centroid list has at most k entries. -/
theorem initCentroids_length_le (data : List Point) (k : ℕ) (rs : List ℕ) :
    (initCentroids data k rs).length ≤ k :=
  initLoop_length_le data k rs [] [] (Nat.zero_le k)

/-- With an empty data list, the while condition centroids.length <
data.length fails immediately, so initialization returns no centroids. -/
theorem initCentroids_nil (k : ℕ) (rs : List ℕ) :
    initCentroids [] k rs = [] := by
  cases rs <;> simp [initCentroids, initLoop]

/-- With k = 0, the while condition centroids.length < k fails immediately,
so initialization returns no centroids. -/
theorem initCentroids_kzero (data : List Point) (rs : List ℕ) :
    initCentroids data 0 rs = [] := by
  cases rs <;> simp [initCentroids, initLoop]

/-! ### Correctness of the nearest-centroid fold -/

/-- Invariant of the centroids.forEach fold once a finite minimum is
installed: the fold returns some pair (b2, m2) with m2 not above the
incoming minimum, m2 a lower bound of all remaining distances, and either
the incoming best survives untouched or the best moved to a remaining
centroid whose distance is m2, beats the incoming minimum strictly, and
strictly beats every remaining centroid before it (the source compares with
strict <, so earlier candidates win ties). -/
theorem nearestAux_spec (p : Point) :
    ∀ (cs : List Point) (idx b : ℕ) (m : ℝ),
      ∃ b2 m2, nearestAux p cs idx (b, some m) = (b2, some m2) ∧
        m2 ≤ m ∧
        (∀ i, i < cs.length → m2 ≤ distance p (cs.getD i (0, 0))) ∧
        ((b2 = b ∧ m2 = m) ∨
          (∃ j, j < cs.length ∧ b2 = idx + j ∧ m2 = distance p (cs.getD j (0, 0)) ∧
            m2 < m ∧ ∀ l, l < j → m2 < distance p (cs.getD l (0, 0)))) := by
  intro cs
  induction cs with
  | nil =>
      intro idx b m
      exact ⟨b, m, rfl, le_refl m, by intro i hi; simp at hi, Or.inl ⟨rfl, rfl⟩⟩
  | cons c cs ih =>
      intro idx b m
      by_cases hd : distance p c < m
      · have step : nearestAux p (c :: cs) idx (b, some m)
            = nearestAux p cs (idx + 1) (idx, some (distance p c)) := by
          simp [nearestAux, hd]
        obtain ⟨b2, m2, heq, hle, hall, hdisj⟩ := ih (idx + 1) idx (distance p c)
        refine ⟨b2, m2, by rw [step, heq], le_of_lt (lt_of_le_of_lt hle hd), ?_, ?_⟩
        · intro i hi
          cases i with
          | zero => simpa using hle
          | succ i => simpa using hall i (by simpa using hi)
        · rcases hdisj with ⟨hb, hm⟩ | ⟨j, hj, hb, hm, hlt, hstrict⟩
          · exact Or.inr ⟨0, by simp, by simpa using hb, by simpa using hm,
              by rw [hm]; exact hd, by intro l hl; omega⟩
          · refine Or.inr ⟨j + 1, by simpa using hj, by omega, by simpa using hm,
              lt_of_lt_of_le hlt (le_of_lt hd), ?_⟩
            intro l hl
            cases l with
            | zero => simpa using hlt
            | succ l => simpa using hstrict l (by omega)
      · have step : nearestAux p (c :: cs) idx (b, some m)
            = nearestAux p cs (idx + 1) (b, some m) := by
          simp [nearestAux, hd]
        obtain ⟨b2, m2, heq, hle, hall, hdisj⟩ := ih (idx + 1) b m
        have hmd : m ≤ distance p c := le_of_not_lt hd
        refine ⟨b2, m2, by rw [step, heq], hle, ?_, ?_⟩
        · intro i hi
          cases i with
          | zero => simpa using le_trans hle hmd
          | succ i => simpa using hall i (by simpa using hi)
        · rcases hdisj with ⟨hb, hm⟩ | ⟨j, hj, hb, hm, hlt, hstrict⟩
          · exact Or.inl ⟨hb, hm⟩
          · refine Or.inr ⟨j + 1, by simpa using hj, by omega, by simpa using hm, hlt, ?_⟩
            intro l hl
            cases l with
            | zero => simpa using lt_of_lt_of_le hlt hmd
            | succ l => simpa using hstrict l (by omega)

/-- Full correctness of the nearest-centroid selection for a nonempty
centroid list: the selected index is in range, its distance is minimal, and
the selected index strictly beats every smaller index (ties go to the first
encountered centroid). -/
theorem nearest_correct (p : Point) (cents : List Point) (h : cents ≠ []) :
    nearestCluster p cents < cents.length ∧
      (∀ l, l < cents.length →
        distance p (cents.getD (nearestCluster p cents) (0, 0)) ≤
          distance p (cents.getD l (0, 0))) ∧
      (∀ l, l < nearestCluster p cents →
        distance p (cents.getD (nearestCluster p cents) (0, 0)) <
          distance p (cents.getD l (0, 0))) := by
  obtain ⟨c, cs, rfl⟩ := List.exists_cons_of_ne_nil h
  have step : nearestCluster p (c :: cs) = (nearestAux p cs 1 (0, some (distance p c))).1 := by
    simp [nearestCluster, nearestAux]
  obtain ⟨b2, m2, heq, hle, hall, hdisj⟩ := nearestAux_spec p cs 1 0 (distance p c)
  rw [step, heq]
  rcases hdisj with ⟨hb, hm⟩ | ⟨j, hj, hb, hm, hlt, hstrict⟩
  · subst hb
    have hm2 : m2 = distance p ((c :: cs).getD 0 (0, 0)) := by simpa using hm
    refine ⟨by simp, ?_, by intro l hl; omega⟩
    intro l hl
    cases l with
    | zero => rw [← hm2, hm]
    | succ l => rw [← hm2, ← hm] at *; simpa using hall l (by simpa using hl)
  · subst hb
    have hm2 : m2 = distance p ((c :: cs).getD (1 + j) (0, 0)) := by
      simpa [Nat.add_comm 1 j] using hm
    refine ⟨by simp; omega, ?_, ?_⟩
    · intro l hl
      cases l with
      | zero => rw [← hm2]; simpa using le_of_lt hlt
      | succ l => rw [← hm2]; simpa using hall l (by simpa using hl)
    · intro l hl
      cases l with
      | zero => rw [← hm2]; simpa using hlt
      | succ l => rw [← hm2]; simpa using hstrict l (by omega)

/-- Every selected cluster index is a valid index into a nonempty centroid
list. -/
theorem nearest_lt_length (p : Point) (cents : List Point) (h : cents ≠ []) :
    nearestCluster p cents < cents.length :=
  (nearest_correct p cents h).1

/-- With at most one centroid the selected index is 0: with none, the
initial bestCluster = 0 survives; with exactly one, index 0 is selected. -/
theorem nearestCluster_short (p : Point) (cents : List Point)
    (h : cents.length ≤ 1) : nearestCluster p cents = 0 := by
  match cents, h with
  | [], _ => rfl
  | [c], _ => simp [nearestCluster, nearestAux]

/-! ### Iteration-loop lemmas -/

/-- The main loop of runKMeans never executes more passes than its budget
(the loop condition iter < maxIterations). -/
theorem kmeansLoop_count_le (data : List Point) (k : ℕ) :
    ∀ (fuel : ℕ) (assigns : List ℕ) (cents : List Point),
      (kmeansLoop data k fuel assigns cents).2.2 ≤ fuel := by
  intro fuel
  induction fuel with
  | zero => intro assigns cents; simp [kmeansLoop]
  | succ n ih =>
      intro assigns cents
      by_cases h : assignPass data cents = assigns
      · simp [kmeansLoop, h]
      · have := ih (assignPass data cents) (updatePass data (assignPass data cents) k)
        simp only [kmeansLoop, if_neg h]
        omega

/-- If the assignment pass leaves the current assignments unchanged, the
loop of runKMeans executes exactly that one pass (whose update still runs)
and stops. -/
theorem kmeansLoop_stop (data : List Point) (k : ℕ) (fuel : ℕ) (assigns : List ℕ)
    (cents : List Point) (h : assignPass data cents = assigns) :
    kmeansLoop data k (fuel + 1) assigns cents
      = (assigns, updatePass data assigns k, 1) := by
  simp [kmeansLoop, h]

/-- After at least one executed pass, the loop state of runKMeans has one
assignment per data point and exactly k centroids. -/
theorem kmeansLoop_lengths (data : List Point) (k : ℕ) :
    ∀ (fuel : ℕ), 1 ≤ fuel → ∀ (assigns : List ℕ) (cents : List Point),
      (kmeansLoop data k fuel assigns cents).1.length = data.length ∧
        (kmeansLoop data k fuel assigns cents).2.1.length = k := by
  intro fuel
  induction fuel with
  | zero => omega
  | succ n ih =>
      intro _ assigns cents
      by_cases h : assignPass data cents = assigns
      · rw [kmeansLoop_stop data k n assigns cents h]
        exact ⟨by rw [← h, assignPass_length], updatePass_length data _ k⟩
      · simp only [kmeansLoop, if_neg h]
        rcases Nat.eq_zero_or_pos n with hn | hn
        · subst hn
          simp [kmeansLoop, assignPass_length, updatePass_length]
        · have := ih hn (assignPass data cents) (updatePass data (assignPass data cents) k)
          simpa using this

/-- The loop of runKMeans preserves the validity invariant: if the current
centroid list has k ≥ 1 entries and every current assignment is below k,
the same holds for the final state. -/
theorem kmeansLoop_inv (data : List Point) (k : ℕ) (hk : 1 ≤ k) :
    ∀ (fuel : ℕ) (assigns : List ℕ) (cents : List Point),
      cents.length = k → (∀ a ∈ assigns, a < k) →
      (∀ a ∈ (kmeansLoop data k fuel assigns cents).1, a < k) ∧
        (kmeansLoop data k fuel assigns cents).2.1.length = k := by
  intro fuel
  induction fuel with
  | zero => intro assigns cents hc ha; exact ⟨ha, hc⟩
  | succ n ih =>
      intro assigns cents hc ha
      have hne : cents ≠ [] := by
        intro hnil; rw [hnil] at hc; simp at hc; omega
      have hnew : ∀ a ∈ assignPass data cents, a < k := by
        intro a haa
        obtain ⟨p, _, rfl⟩ := List.mem_map.1 haa
        rw [← hc]
        exact nearest_lt_length p cents hne
      by_cases h : assignPass data cents = assigns
      · rw [kmeansLoop_stop data k n assigns cents h]
        exact ⟨ha, updatePass_length data _ k⟩
      · simp only [kmeansLoop, if_neg h]
        have := ih (assignPass data cents) (updatePass data (assignPass data cents) k)
          (updatePass_length data _ k) hnew
        simpa using this

/-- The history loop pushes exactly one snapshot per executed pass. -/
theorem kmeansLoopH_length_eq_count (data : List Point) (k : ℕ) (rX rY : ℕ → ℕ → ℕ) :
    ∀ (fuel iter : ℕ) (assigns : List ℕ) (cents : List Point),
      (kmeansLoopH data k rX rY fuel iter assigns cents).1.length
        = (kmeansLoopH data k rX rY fuel iter assigns cents).2 := by
  intro fuel
  induction fuel with
  | zero => intro iter assigns cents; simp [kmeansLoopH]
  | succ n ih =>
      intro iter assigns cents
      by_cases h : assignPass data cents = assigns
      · simp [kmeansLoopH, h]
      · simp only [kmeansLoopH, if_neg h]
        simp [ih]

/-- The history loop never executes more passes than its budget. -/
theorem kmeansLoopH_count_le (data : List Point) (k : ℕ) (rX rY : ℕ → ℕ → ℕ) :
    ∀ (fuel iter : ℕ) (assigns : List ℕ) (cents : List Point),
      (kmeansLoopH data k rX rY fuel iter assigns cents).2 ≤ fuel := by
  intro fuel
  induction fuel with
  | zero => intro iter assigns cents; simp [kmeansLoopH]
  | succ n ih =>
      intro iter assigns cents
      by_cases h : assignPass data cents = assigns
      · simp [kmeansLoopH, h]
      · have := ih (iter + 1) (assignPass data cents)
          (updatePassReseed data (assignPass data cents) k (rX iter) (rY iter))
        simp only [kmeansLoopH, if_neg h]
        omega

/-- If the assignment pass leaves the current assignments unchanged, the
history loop executes exactly one more pass and stops. -/
theorem kmeansLoopH_stop (data : List Point) (k : ℕ) (rX rY : ℕ → ℕ → ℕ)
    (fuel iter : ℕ) (assigns : List ℕ) (cents : List Point)
    (h : assignPass data cents = assigns) :
    (kmeansLoopH data k rX rY (fuel + 1) iter assigns cents).2 = 1 := by
  simp [kmeansLoopH, h]

/-! ### Element-access helpers -/

/-- getD commutes with map at an in-range index, for any defaults. -/
theorem getD_map {α β : Type} (f : α → β) :
    ∀ (l : List α) (i : ℕ), i < l.length → ∀ (d : β) (d2 : α),
      (l.map f).getD i d = f (l.getD i d2) := by
  intro l
  induction l with
  | nil => intro i hi; simp at hi
  | cons a l ih =>
      intro i hi d d2
      cases i with
      | zero => rfl
      | succ i => simpa using ih i (by simpa using hi) d d2

/-- getD on enumFrom at an in-range index pairs the shifted index with the
element. -/
theorem getD_enumFrom {α : Type} :
    ∀ (l : List α) (n i : ℕ), i < l.length → ∀ (dp : ℕ × α) (d : α),
      (l.enumFrom n).getD i dp = (n + i, l.getD i d) := by
  intro l
  induction l with
  | nil => intro n i hi; simp at hi
  | cons a l ih =>
      intro n i hi dp d
      cases i with
      | zero => simp [List.enumFrom]
      | succ i =>
          have heq := ih (n + 1) i (by simpa using hi) dp d
          show (List.enumFrom (n + 1) l).getD i dp = _
          rw [heq]
          simp [Prod.ext_iff]
          omega

/-- getD on enum at an in-range index pairs the index with the element. -/
theorem getD_enum {α : Type} (l : List α) (i : ℕ) (hi : i < l.length)
    (dp : ℕ × α) (d : α) : l.enum.getD i dp = (i, l.getD i d) := by
  have := getD_enumFrom l 0 i hi dp d
  simpa [List.enum] using this

/-! ### Degenerate-cluster behavior of the two update passes -/

/-- In the update pass of runKMeans, a cluster whose accumulator cell
counted zero points gets the centroid (0, 0): the ternary
c.count > 0 ? c.x / c.count : 0 takes its else branch. -/
theorem updatePass_empty_cluster (data : List Point) (assigns : List ℕ) (k j : ℕ)
    (hj : j < k)
    (hcnt : ((accumulate (data.zip assigns)
        (List.replicate k ((0 : ℝ), (0 : ℝ), (0 : ℕ)))).getD j
        ((0 : ℝ), (0 : ℝ), (0 : ℕ))).2.2 = 0) :
    (updatePass data assigns k).getD j ((1 : ℝ), (1 : ℝ)) = ((0 : ℝ), (0 : ℝ)) := by
  have hlen : j < (accumulate (data.zip assigns)
      (List.replicate k ((0 : ℝ), (0 : ℝ), (0 : ℕ)))).length := by
    rw [accumulate_length]; simpa using hj
  rw [updatePass, getD_map _ _ j hlen ((1 : ℝ), (1 : ℝ)) ((0 : ℝ), (0 : ℝ), (0 : ℕ))]
  rw [hcnt]
  simp

/-- In the update pass of runKMeansWithHistory, a cluster whose accumulator
cell counted zero points is instead re-seeded: its x coordinate is the x
feature of the data point at the first fresh random draw and its y
coordinate the y feature of the data point at the second, independent
draw. -/
theorem updatePassReseed_empty_cluster (data : List Point) (assigns : List ℕ)
    (k j : ℕ) (rX rY : ℕ → ℕ) (hj : j < k)
    (hcnt : ((accumulate (data.zip assigns)
        (List.replicate k ((0 : ℝ), (0 : ℝ), (0 : ℕ)))).getD j
        ((0 : ℝ), (0 : ℝ), (0 : ℕ))).2.2 = 0) :
    (updatePassReseed data assigns k rX rY).getD j ((1 : ℝ), (1 : ℝ))
      = ((data.getD (rX j) (0, 0)).1, (data.getD (rY j) (0, 0)).2) := by
  have hlen : j < (accumulate (data.zip assigns)
      (List.replicate k ((0 : ℝ), (0 : ℝ), (0 : ℕ)))).length := by
    rw [accumulate_length]; simpa using hj
  have hlen2 : j < (accumulate (data.zip assigns)
      (List.replicate k ((0 : ℝ), (0 : ℝ), (0 : ℕ)))).enum.length := by
    simpa using hlen
  rw [updatePassReseed, getD_map _ _ j hlen2 ((1 : ℝ), (1 : ℝ))
    (0, ((0 : ℝ), (0 : ℝ), (0 : ℕ)))]
  rw [getD_enum _ j hlen _ ((0 : ℝ), (0 : ℝ), (0 : ℕ))]
  rw [hcnt]
  simp

/-! ### Behavior for k = 1: the single centroid is the global mean -/

/-- With at most one centroid available, every point is assigned to index 0,
so the assignment pass returns the all-zero array. -/
theorem assignPass_short (data cents : List Point) (h : cents.length ≤ 1) :
    assignPass data cents = List.replicate data.length 0 := by
  induction data with
  | nil => rfl
  | cons p ps ih =>
      simp only [assignPass, List.map_cons] at ih ⊢
      rw [nearestCluster_short p cents h, ih]
      simp [List.replicate]

/-- Accumulating all points into the single cluster 0 sums the coordinates
and counts the points. -/
theorem accumulate_zeros :
    ∀ (ps : List Point) (a b : ℝ) (m : ℕ),
      accumulate (ps.zip (List.replicate ps.length 0)) [(a, b, m)]
        = [(a + (ps.map Prod.fst).sum, b + (ps.map Prod.snd).sum, m + ps.length)] := by
  intro ps
  induction ps with
  | nil => intro a b m; simp [accumulate]
  | cons p ps ih =>
      intro a b m
      have hz : ((p :: ps).zip (List.replicate (p :: ps).length 0))
          = (p, 0) :: ps.zip (List.replicate ps.length 0) := by
        simp [List.replicate]
      rw [hz]
      show accumulate (ps.zip (List.replicate ps.length 0))
        (accumStep [(a, b, m)] (p, 0)) = _
      have hstep : accumStep [(a, b, m)] (p, 0) = [(a + p.1, b + p.2, m + 1)] := by
        simp [accumStep]
      rw [hstep, ih]
      simp only [List.map_cons, List.sum_cons, List.length_cons, List.cons.injEq,
        Prod.mk.injEq, and_true]
      exact ⟨by ring, by ring, by omega⟩

/-- With k = 1 and the all-zero assignment, the update pass returns the
single arithmetic mean of all points. -/
theorem updatePass_single (data : List Point) (h : data ≠ []) :
    updatePass data (List.replicate data.length 0) 1
      = [((data.map Prod.fst).sum / (data.length : ℝ),
          (data.map Prod.snd).sum / (data.length : ℝ))] := by
  rw [updatePass]
  have hrep : List.replicate 1 ((0 : ℝ), (0 : ℝ), (0 : ℕ))
      = [((0 : ℝ), (0 : ℝ), (0 : ℕ))] := rfl
  rw [hrep, accumulate_zeros data 0 0 0]
  have hn : 0 < data.length := List.length_pos.2 h
  simp [hn]

/-! ### Error classification of the fallible engine -/

/-- The fallible accumulation only ever throws TypeError. -/
theorem accumulateE_error :
    ∀ (ps : List (Point × ℕ)) (acc : List Cell) (e : KMeansFailure),
      accumulateE ps acc = Except.error e → e = KMeansFailure.typeError := by
  intro ps
  induction ps with
  | nil => intro acc e h; simp [accumulateE] at h
  | cons pa ps ih =>
      intro acc e h
      by_cases hidx : pa.2 < acc.length
      · rw [accumulateE] at h
        simp only [accumStepE, if_pos hidx] at h
        exact ih _ e h
      · rw [accumulateE] at h
        simp only [accumStepE, if_neg hidx] at h
        simp at h
        exact h.symm

/-- The fallible update pass only ever throws TypeError. -/
theorem updatePassE_error (data : List Point) (assigns : List ℕ) (k : ℕ)
    (e : KMeansFailure) (h : updatePassE data assigns k = Except.error e) :
    e = KMeansFailure.typeError := by
  rw [updatePassE] at h
  rcases hacc : accumulateE (data.zip assigns)
      (List.replicate k ((0 : ℝ), (0 : ℝ), (0 : ℕ))) with e2 | acc
  · rw [hacc] at h
    simp at h
    rw [← h]
    exact accumulateE_error _ _ e2 hacc
  · rw [hacc] at h
    simp at h

/-- The fallible loop only ever throws TypeError. -/
theorem kmeansLoopE_error (data : List Point) (k : ℕ) :
    ∀ (fuel : ℕ) (assigns : List ℕ) (cents : List Point) (e : KMeansFailure),
      kmeansLoopE data k fuel assigns cents = Except.error e
        → e = KMeansFailure.typeError := by
  intro fuel
  induction fuel with
  | zero => intro assigns cents e h; simp [kmeansLoopE] at h
  | succ n ih =>
      intro assigns cents e h
      rw [kmeansLoopE] at h
      rcases hup : updatePassE data (assignPass data cents) k with e2 | newC
      · rw [hup] at h
        simp at h
        rw [← h]
        exact updatePassE_error _ _ _ e2 hup
      · rw [hup] at h
        simp only [] at h
        by_cases hch : assignPass data cents = assigns
        · rw [if_pos hch] at h; simp at h
        · rw [if_neg hch] at h
          exact ih _ _ e h

/-- The engine never reports InvalidArgument: it contains no argument
validation; its only reachable failure is the unhandled TypeError. -/
theorem runKMeansE_not_invalid (data : List Point) (k maxIter : ℕ) (rs : List ℕ) :
    runKMeansE data k maxIter rs ≠ Except.error KMeansFailure.invalidArgument := by
  intro h
  rw [runKMeansE] at h
  rcases hl : kmeansLoopE data k maxIter (List.replicate data.length 0)
      (initCentroids data k rs) with e2 | r
  · rw [hl] at h
    simp at h
    have := kmeansLoopE_error data k maxIter _ _ e2 hl
    rw [h] at this
    exact KMeansFailure.noConfusion this
  · rw [hl] at h
    simp at h

/-- For k = 0 (the embedding of the source's k less than or equal to 0) and
nonempty data, the first update pass indexes cluster 0 of the empty
accumulator array and throws TypeError. -/
theorem runKMeansE_kzero (data : List Point) (maxIter : ℕ) (rs : List ℕ)
    (hd : data ≠ []) (hm : 1 ≤ maxIter) :
    runKMeansE data 0 maxIter rs = Except.error KMeansFailure.typeError := by
  obtain ⟨p, ps, rfl⟩ := List.exists_cons_of_ne_nil hd
  obtain ⟨m, rfl⟩ : ∃ m, maxIter = m + 1 := ⟨maxIter - 1, by omega⟩
  simp [runKMeansE, initCentroids_kzero, kmeansLoopE, assignPass, nearestCluster,
    nearestAux, updatePassE, accumulateE, accumStepE]

/-- On empty input the engine returns normally: empty assignments, and the
centroid list the last update pass produced, namely k copies of (0, 0) as
soon as at least one pass runs (the loop always runs its first iteration),
and the empty initialization result when the iteration budget is zero. -/
theorem runKMeans_nil (k maxIter : ℕ) (rs : List ℕ) :
    runKMeans [] k maxIter rs
      = ⟨[], if maxIter = 0 then []
             else List.replicate k ((0 : ℝ), (0 : ℝ))⟩ := by
  cases maxIter with
  | zero => simp [runKMeans, initCentroids_nil, kmeansLoop]
  | succ m =>
      have hstop := kmeansLoop_stop ([] : List Point) k m [] [] (by rfl)
      simp [runKMeans, initCentroids_nil, hstop, updatePass, accumulate,
        List.map_replicate]

/-! ### Claim theorems -/

/-- Claim C1, counterexample: calling runKMeans on the empty point list with
k = 2 and maxIterations = 1 does return an empty assignment vector, but the
centroid list is not empty: the update pass of the single executed iteration
rebuilds it as two (0, 0) centroids. -/
theorem C1_counterexample :
    (runKMeans [] 2 1 []).assignments = [] ∧
      (runKMeans [] 2 1 []).centroids = [((0 : ℝ), (0 : ℝ)), (0, 0)] ∧
      ([((0 : ℝ), (0 : ℝ)), (0, 0)] : List Point) ≠ [] := by
  refine ⟨?_, ?_, by simp⟩ <;>
    simp [runKMeans, initCentroids, initLoop, kmeansLoop, assignPass, updatePass,
      accumulate, List.replicate, accumStep]

/-- Claim C1, amended: for every k, maxIterations and random draws, runKMeans
on an empty points sequence raises no error and returns an empty assignment
vector; its centroid list is empty when maxIterations = 0, and otherwise
consists of k copies of (0, 0) produced by the single executed update
pass. -/
theorem C1_empty_input (k maxIter : ℕ) (rs : List ℕ) :
    runKMeans [] k maxIter rs
      = ⟨[], if maxIter = 0 then []
             else List.replicate k ((0 : ℝ), (0 : ℝ))⟩ :=
  runKMeans_nil k maxIter rs

/-- Claim C2, counterexample: one point and k = 2 (so the claimed
effective_k is 1) with the default maxIterations = 50: the assignment vector
has one entry as claimed, but the returned centroid list has 2 entries, not
effective_k = 1. -/
theorem C2_counterexample :
    (runKMeans [((0 : ℝ), (0 : ℝ))] 2 50 [0]).assignments.length = 1 ∧
      (runKMeans [((0 : ℝ), (0 : ℝ))] 2 50 [0]).centroids.length = 2 ∧
      (2 : ℕ) ≠ 1 := by
  refine ⟨by decide, by decide, by decide⟩

/-- Claim C2, amended: whenever at least one iteration runs (in particular
at the default maxIterations = 50), the assignment vector has exactly
len(points) entries and the centroid list has exactly k entries — the update
pass rebuilds the centroid array at full length k, padding clusters that
received no points; only the initial sampling is capped at len(points). -/
theorem C2_cardinality (data : List Point) (k maxIter : ℕ) (rs : List ℕ)
    (hm : 1 ≤ maxIter) :
    (runKMeans data k maxIter rs).assignments.length = data.length ∧
      (runKMeans data k maxIter rs).centroids.length = k := by
  have h := kmeansLoop_lengths data k maxIter hm (List.replicate data.length 0)
    (initCentroids data k rs)
  simpa [runKMeans] using h

/-- Claim C2, witness for the amended theorem at one point, k = 2,
maxIterations = 1. -/
theorem C2_cardinality_witness :
    1 ≤ 1 ∧
      (runKMeans [((0 : ℝ), (0 : ℝ))] 2 1 [0]).assignments.length = 1 ∧
      (runKMeans [((0 : ℝ), (0 : ℝ))] 2 1 [0]).centroids.length = 2 :=
  ⟨le_refl 1, (C2_cardinality [((0 : ℝ), (0 : ℝ))] 2 1 [0] (le_refl 1)).1,
    (C2_cardinality [((0 : ℝ), (0 : ℝ))] 2 1 [0] (le_refl 1)).2⟩

/-- Claim C3, counterexample: in runKMeansWithHistory on two identical
points (1, 1) with k = 2 and both initial centroids sampled from them, the
first pass assigns both points to cluster 0 (strict < keeps the first of two
equal distances), so cluster 1 receives zero points; its centroid in the
recorded snapshot is then the re-seeded value (1, 1) — not (0, 0) as the
claim asserts for every engine in the repository. -/
theorem C3_counterexample :
    ((runKMeansWithHistory [((1 : ℝ), (1 : ℝ)), (1, 1)] 2 1 [0, 1]
        (fun _ _ => 0) (fun _ _ => 0)).getD 1 ⟨[], []⟩).assignments = [0, 0] ∧
      ((runKMeansWithHistory [((1 : ℝ), (1 : ℝ)), (1, 1)] 2 1 [0, 1]
        (fun _ _ => 0) (fun _ _ => 0)).getD 1 ⟨[], []⟩).centroids.getD 1 (0, 0)
        = ((1 : ℝ), (1 : ℝ)) ∧
      ((1 : ℝ), (1 : ℝ)) ≠ ((0 : ℝ), (0 : ℝ)) := by
  have key : (runKMeansWithHistory [((1 : ℝ), (1 : ℝ)), (1, 1)] 2 1 [0, 1]
      (fun _ _ => 0) (fun _ _ => 0)).getD 1 ⟨[], []⟩
      = ⟨[0, 0], [((1 : ℝ), (1 : ℝ)), (1, 1)]⟩ := by
    norm_num [runKMeansWithHistory, initCentroids, initLoop, kmeansLoopH, assignPass,
      updatePassReseed, accumulate, accumStep, nearestCluster, nearestAux, distance,
      List.enum, List.enumFrom, List.replicate]
  rw [key]
  refine ⟨rfl, rfl, ?_⟩
  intro h
  exact one_ne_zero (congrArg Prod.fst h)

/-- Claim C3, amended: a cluster that receives zero points in an update pass
has its centroid set to (0, 0) in the runKMeans engine of
UnsupervisedLearning.tsx, while the runKMeansWithHistory engine of
GalaxyZooExample.tsx instead re-seeds it with the x feature of one randomly
drawn input point and the y feature of another, independently drawn one. -/
theorem C3_empty_cluster (data : List Point) (assigns : List ℕ) (k j : ℕ)
    (rX rY : ℕ → ℕ) (hj : j < k)
    (hcnt : ((accumulate (data.zip assigns)
        (List.replicate k ((0 : ℝ), (0 : ℝ), (0 : ℕ)))).getD j
        ((0 : ℝ), (0 : ℝ), (0 : ℕ))).2.2 = 0) :
    (updatePass data assigns k).getD j ((1 : ℝ), (1 : ℝ)) = ((0 : ℝ), (0 : ℝ)) ∧
      (updatePassReseed data assigns k rX rY).getD j ((1 : ℝ), (1 : ℝ))
        = ((data.getD (rX j) (0, 0)).1, (data.getD (rY j) (0, 0)).2) :=
  ⟨updatePass_empty_cluster data assigns k j hj hcnt,
    updatePassReseed_empty_cluster data assigns k j rX rY hj hcnt⟩

/-- Claim C3, witness for the amended theorem: one point (5, 7) assigned to
cluster 0, k = 2; cluster 1 counts zero points, collapses to (0, 0) in
runKMeans's update pass and re-seeds to (5, 7) in the history engine's. -/
theorem C3_empty_cluster_witness :
    (1 : ℕ) < 2 ∧
      ((accumulate ([((5 : ℝ), (7 : ℝ))].zip [0])
        (List.replicate 2 ((0 : ℝ), (0 : ℝ), (0 : ℕ)))).getD 1
        ((0 : ℝ), (0 : ℝ), (0 : ℕ))).2.2 = 0 ∧
      (updatePass [((5 : ℝ), (7 : ℝ))] [0] 2).getD 1 ((1 : ℝ), (1 : ℝ))
        = ((0 : ℝ), (0 : ℝ)) ∧
      (updatePassReseed [((5 : ℝ), (7 : ℝ))] [0] 2 (fun _ => 0) (fun _ => 0)).getD 1
        ((1 : ℝ), (1 : ℝ))
        = (([((5 : ℝ), (7 : ℝ))].getD 0 (0, 0)).1,
           ([((5 : ℝ), (7 : ℝ))].getD 0 (0, 0)).2) :=
  ⟨by decide, by decide,
    (C3_empty_cluster [((5 : ℝ), (7 : ℝ))] [0] 2 1 (fun _ => 0) (fun _ => 0)
      (by decide) (by decide)).1,
    (C3_empty_cluster [((5 : ℝ), (7 : ℝ))] [0] 2 1 (fun _ => 0) (fun _ => 0)
      (by decide) (by decide)).2⟩

/-- Claim C4, confirmed: in every assignment pass (the passes of both
engines are textually identical and share this embedding), every point is
assigned to a centroid of minimal Euclidean distance among the current
centroids, and because the comparison is strict <, the lowest index wins
ties: the chosen index is in range, no centroid is strictly closer, and
every centroid at a smaller index is strictly farther. -/
theorem C4_nearest_assignment (data cents : List Point) (i : ℕ)
    (hc : cents ≠ []) (hi : i < data.length) :
    (assignPass data cents).getD i 0 < cents.length ∧
      (∀ l, l < cents.length →
        distance (data.getD i (0, 0))
            (cents.getD ((assignPass data cents).getD i 0) (0, 0)) ≤
          distance (data.getD i (0, 0)) (cents.getD l (0, 0))) ∧
      (∀ l, l < (assignPass data cents).getD i 0 →
        distance (data.getD i (0, 0))
            (cents.getD ((assignPass data cents).getD i 0) (0, 0)) <
          distance (data.getD i (0, 0)) (cents.getD l (0, 0))) := by
  have hmap : (assignPass data cents).getD i 0
      = nearestCluster (data.getD i (0, 0)) cents := by
    rw [assignPass]
    exact getD_map _ data i hi 0 (0, 0)
  rw [hmap]
  exact nearest_correct (data.getD i (0, 0)) cents hc

/-- Claim C4, witness at the point (3, 4) and the single centroid (0, 0). -/
theorem C4_nearest_assignment_witness :
    ([((0 : ℝ), (0 : ℝ))] : List Point) ≠ [] ∧ (0 : ℕ) < 1 ∧
      ((assignPass [((3 : ℝ), (4 : ℝ))] [((0 : ℝ), (0 : ℝ))]).getD 0 0 < 1 ∧
        (∀ l, l < ([((0 : ℝ), (0 : ℝ))] : List Point).length →
          distance ([((3 : ℝ), (4 : ℝ))].getD 0 (0, 0))
              ([((0 : ℝ), (0 : ℝ))].getD
                ((assignPass [((3 : ℝ), (4 : ℝ))] [((0 : ℝ), (0 : ℝ))]).getD 0 0) (0, 0)) ≤
            distance ([((3 : ℝ), (4 : ℝ))].getD 0 (0, 0))
              ([((0 : ℝ), (0 : ℝ))].getD l (0, 0))) ∧
        (∀ l, l < (assignPass [((3 : ℝ), (4 : ℝ))] [((0 : ℝ), (0 : ℝ))]).getD 0 0 →
          distance ([((3 : ℝ), (4 : ℝ))].getD 0 (0, 0))
              ([((0 : ℝ), (0 : ℝ))].getD
                ((assignPass [((3 : ℝ), (4 : ℝ))] [((0 : ℝ), (0 : ℝ))]).getD 0 0) (0, 0)) <
            distance ([((3 : ℝ), (4 : ℝ))].getD 0 (0, 0))
              ([((0 : ℝ), (0 : ℝ))].getD l (0, 0)))) :=
  ⟨by simp, by decide,
    C4_nearest_assignment [((3 : ℝ), (4 : ℝ))] [((0 : ℝ), (0 : ℝ))] 0 (by simp) (by decide)⟩

/-- Claim C5, confirmed: both engines' loops execute at most maxIterations
(the fuel) assignment-and-update passes, and when a full assignment pass
changes no assignment (exact equality of the assignment arrays, with no
tolerance check on centroid movement), exactly that one pass runs and the
loop stops. -/
theorem C5_iteration_bound (data : List Point) (k fuel iter : ℕ) (assigns : List ℕ)
    (cents : List Point) (rX rY : ℕ → ℕ → ℕ) :
    (kmeansLoop data k fuel assigns cents).2.2 ≤ fuel ∧
      (kmeansLoopH data k rX rY fuel iter assigns cents).2 ≤ fuel ∧
      (assignPass data cents = assigns → 1 ≤ fuel →
        (kmeansLoop data k fuel assigns cents).2.2 = 1 ∧
          (kmeansLoopH data k rX rY fuel iter assigns cents).2 = 1) := by
  refine ⟨kmeansLoop_count_le data k fuel assigns cents,
    kmeansLoopH_count_le data k rX rY fuel iter assigns cents, ?_⟩
  intro h hf
  obtain ⟨m, rfl⟩ : ∃ m, fuel = m + 1 := ⟨fuel - 1, by omega⟩
  refine ⟨?_, kmeansLoopH_stop data k rX rY m iter assigns cents h⟩
  rw [kmeansLoop_stop data k m assigns cents h]

/-- Claim C5, witness on the empty data set with one unit of fuel: the
assignment pass changes nothing, so exactly one pass executes in each
engine. -/
theorem C5_iteration_bound_witness :
    assignPass [] [] = ([] : List ℕ) ∧
      (kmeansLoop [] 0 1 [] []).2.2 = 1 ∧
      (kmeansLoopH [] 0 (fun _ _ => 0) (fun _ _ => 0) 1 0 [] []).2 = 1 :=
  ⟨rfl,
    ((C5_iteration_bound [] 0 1 0 [] [] (fun _ _ => 0) (fun _ _ => 0)).2.2
      rfl (le_refl 1)).1,
    ((C5_iteration_bound [] 0 1 0 [] [] (fun _ _ => 0) (fun _ _ => 0)).2.2
      rfl (le_refl 1)).2⟩

/-- Claim C6, confirmed: for nonempty data, k = 1 and at least one allowed
iteration, runKMeans returns the all-zero assignment vector and a single
centroid equal to the arithmetic mean of all points' (x, y) pairs: the first
pass changes no assignment (every best index into at most one centroid is
0), so the loop stops after its update pass, which averages all points into
cluster 0. -/
theorem C6_k1_mean (data : List Point) (maxIter : ℕ) (rs : List ℕ)
    (hd : data ≠ []) (hm : 1 ≤ maxIter) :
    runKMeans data 1 maxIter rs
      = ⟨List.replicate data.length 0,
         [((data.map Prod.fst).sum / (data.length : ℝ),
           (data.map Prod.snd).sum / (data.length : ℝ))]⟩ := by
  obtain ⟨m, rfl⟩ : ∃ m, maxIter = m + 1 := ⟨maxIter - 1, by omega⟩
  have hc : (initCentroids data 1 rs).length ≤ 1 := initCentroids_length_le data 1 rs
  have hpass := assignPass_short data (initCentroids data 1 rs) hc
  have hstop := kmeansLoop_stop data 1 m (List.replicate data.length 0)
    (initCentroids data 1 rs) hpass
  simp [runKMeans, hstop, updatePass_single data hd]

/-- Claim C6, witness at the single point (2, 4). -/
theorem C6_k1_mean_witness :
    ([((2 : ℝ), (4 : ℝ))] : List Point) ≠ [] ∧ 1 ≤ 1 ∧
      runKMeans [((2 : ℝ), (4 : ℝ))] 1 1 []
        = ⟨List.replicate 1 0,
           [(([((2 : ℝ), (4 : ℝ))].map Prod.fst).sum / ((1 : ℕ) : ℝ),
             ([((2 : ℝ), (4 : ℝ))].map Prod.snd).sum / ((1 : ℕ) : ℝ))]⟩ :=
  ⟨by simp, le_refl 1, C6_k1_mean [((2 : ℝ), (4 : ℝ))] 1 [] (by simp) (le_refl 1)⟩

/-- Claim C7, counterexample: with one point and k = 0 (the embedding of a
nonpositive k) the engine does not fail with InvalidArgument: the first
update pass reads newCentroids[0] of the empty accumulator array and an
unhandled TypeError escapes. -/
theorem C7_counterexample :
    runKMeansE [((0 : ℝ), (0 : ℝ))] 0 1 [] = Except.error KMeansFailure.typeError ∧
      KMeansFailure.typeError ≠ KMeansFailure.invalidArgument :=
  ⟨rfl, by decide⟩

/-- Claim C7, amended: the engine performs no argument validation and never
reports InvalidArgument; for k = 0 (nonpositive k) with nonempty points and
a positive iteration budget it fails with an unhandled TypeError from the
update pass's out-of-range indexing, and that TypeError is its only
reachable failure. -/
theorem C7_failure_mode (data : List Point) (k maxIter : ℕ) (rs : List ℕ) :
    (data ≠ [] → 1 ≤ maxIter →
      runKMeansE data 0 maxIter rs = Except.error KMeansFailure.typeError) ∧
      runKMeansE data k maxIter rs ≠ Except.error KMeansFailure.invalidArgument :=
  ⟨fun hd hm => runKMeansE_kzero data maxIter rs hd hm,
    runKMeansE_not_invalid data k maxIter rs⟩

/-- Claim C7, witness at one point, k = 0, maxIterations = 1. -/
theorem C7_failure_mode_witness :
    ([((0 : ℝ), (0 : ℝ))] : List Point) ≠ [] ∧
      runKMeansE [((0 : ℝ), (0 : ℝ))] 0 1 [] = Except.error KMeansFailure.typeError ∧
      runKMeansE [((0 : ℝ), (0 : ℝ))] 0 1 [] ≠ Except.error KMeansFailure.invalidArgument :=
  ⟨by simp,
    (C7_failure_mode [((0 : ℝ), (0 : ℝ))] 0 1 []).1 (by simp) (le_refl 1),
    (C7_failure_mode [((0 : ℝ), (0 : ℝ))] 0 1 []).2⟩

/-- Claim C9, confirmed: with 1 ≤ k and a fully successful initialization of
k centroids (which the source's while loop guarantees when k ≤ len(points)),
the centroid list has exactly k entries and every assignment value is a
valid index below k, both as a loop invariant preserved by every pass and in
the final returned result (assignment values are naturals, so 0 ≤ value
holds trivially). -/
theorem C9_assignment_validity (data : List Point) (k maxIter : ℕ) (rs : List ℕ)
    (hk : 1 ≤ k) (hinit : (initCentroids data k rs).length = k) :
    (∀ (fuel : ℕ) (assigns : List ℕ) (cents : List Point),
        cents.length = k → (∀ a ∈ assigns, a < k) →
        (∀ a ∈ (kmeansLoop data k fuel assigns cents).1, a < k) ∧
          (kmeansLoop data k fuel assigns cents).2.1.length = k) ∧
      (∀ a ∈ (runKMeans data k maxIter rs).assignments, a < k) ∧
      (runKMeans data k maxIter rs).centroids.length = k := by
  have hzero : ∀ a ∈ List.replicate data.length 0, a < k := by
    intro a ha
    simp [List.eq_of_mem_replicate ha]
    omega
  have hfin := kmeansLoop_inv data k hk maxIter (List.replicate data.length 0)
    (initCentroids data k rs) hinit hzero
  exact ⟨kmeansLoop_inv data k hk, by simpa [runKMeans] using hfin.1,
    by simpa [runKMeans] using hfin.2⟩

/-- Claim C9, witness at one point, k = 1, one initialization draw. -/
theorem C9_assignment_validity_witness :
    1 ≤ 1 ∧ (initCentroids [((0 : ℝ), (0 : ℝ))] 1 [0]).length = 1 ∧
      (∀ a ∈ (runKMeans [((0 : ℝ), (0 : ℝ))] 1 1 [0]).assignments, a < 1) ∧
      (runKMeans [((0 : ℝ), (0 : ℝ))] 1 1 [0]).centroids.length = 1 :=
  ⟨le_refl 1, by decide,
    (C9_assignment_validity [((0 : ℝ), (0 : ℝ))] 1 1 [0] (le_refl 1) (by decide)).2.1,
    (C9_assignment_validity [((0 : ℝ), (0 : ℝ))] 1 1 [0] (le_refl 1) (by decide)).2.2⟩

/-- Claim C10, confirmed for its statable content: the first snapshot of the
returned history is the initial sampled centroids with the all-zero
assignment vector, the history holds exactly one snapshot per executed
update pass plus that initial one, hence at most maxIterations + 1
snapshots.  The deep-copy aspect holds by construction in this pure
embedding: every snapshot is an immutable value, so no later iteration can
mutate an earlier one. -/
theorem C10_history_shape (data : List Point) (k maxIter : ℕ) (rs : List ℕ)
    (rX rY : ℕ → ℕ → ℕ) :
    (runKMeansWithHistory data k maxIter rs rX rY).head?
      = some ⟨List.replicate data.length 0, initCentroids data k rs⟩ ∧
      (runKMeansWithHistory data k maxIter rs rX rY).length
        = (kmeansLoopH data k rX rY maxIter 0 (List.replicate data.length 0)
            (initCentroids data k rs)).2 + 1 ∧
      (runKMeansWithHistory data k maxIter rs rX rY).length ≤ maxIter + 1 := by
  have h1 := kmeansLoopH_length_eq_count data k rX rY maxIter 0
    (List.replicate data.length 0) (initCentroids data k rs)
  have h2 := kmeansLoopH_count_le data k rX rY maxIter 0
    (List.replicate data.length 0) (initCentroids data k rs)
  refine ⟨rfl, ?_, ?_⟩ <;> simp [runKMeansWithHistory] <;> omega

end AstroKMeans
